import Mathlib

/-!
Shallow embedding of the deep-plan repository's core modules:

* `scripts/lib/sections.py`   — SECTION_MANIFEST parsing and section progress
* `scripts/lib/todos.py`      — TODO list construction
* `scripts/checks/setup-planning-session.py` — resume-step inference

Python strings are modelled as `List Char` (`Str`).  Python functions that can
raise are modelled with `Option`/`Except`: a `none`/`.error` result stands for
an uncaught exception.  `str.strip()` is modelled over the ASCII whitespace
characters; `list.sort(key=...)` (a stable sort by key) is modelled with
`List.insertionSort` on the key order, which is stable in the same sense.
-/

namespace DeepPlan

/-- Characters of a Python string. -/
abbrev Str := List Char

/-- Whitespace stripped by `str.strip()` (ASCII subset). -/
def isPySpace (c : Char) : Bool :=
  c = ' ' || c = '\t' || c = '\n' || c = '\r' || c = Char.ofNat 11 || c = Char.ofNat 12

/-- `str.strip()`: drop leading and trailing whitespace. -/
def strip (l : Str) : Str :=
  ((l.dropWhile isPySpace).reverse.dropWhile isPySpace).reverse

/-- `str.split('\n')`: split on newlines, keeping empty pieces. -/
def splitNl : Str → List Str
  | [] => [[]]
  | c :: t =>
    if c = '\n' then [] :: splitNl t
    else
      match splitNl t with
      | [] => [[c]]
      | p :: ps => (c :: p) :: ps

/-- `leadsWith pre l` holds when `pre` is an initial segment of `l`. -/
def leadsWith : Str → Str → Bool
  | [], _ => true
  | _ :: _, [] => false
  | a :: pre, b :: l => a = b && leadsWith pre l

/-- `trailsWith suf l` holds when `suf` is a final segment of `l`. -/
def trailsWith (suf l : Str) : Bool :=
  leadsWith suf.reverse l.reverse

/-- Helper for `str.find`: first index `≥ i` at which `needle` occurs. -/
def findSubAux (needle : Str) : Str → Nat → Option Nat
  | [], i => if leadsWith needle [] then some i else none
  | c :: t, i => if leadsWith needle (c :: t) then some i else findSubAux needle t (i + 1)

/-- `content.find(needle)`, with `none` for Python's `-1`. -/
def findSub (hay needle : Str) : Option Nat :=
  findSubAux needle hay 0

/-- `content.find(needle, start)`, with `none` for Python's `-1`. -/
def findSubFrom (hay needle : Str) (start : Nat) : Option Nat :=
  (findSubAux needle (hay.drop start) 0).map (· + start)

/-- `MANIFEST_START` marker from sections.py. -/
def MANIFEST_START : Str := "<!-- SECTION_MANIFEST".data

/-- `MANIFEST_END` marker from sections.py. -/
def MANIFEST_END : Str := "END_MANIFEST -->".data

/-- Characters allowed in the name part of `SECTION_NAME_PATTERN`. -/
def isNameChar (c : Char) : Bool :=
  c.isAlphanum || c = '_' || c = '-'

/-- `SECTION_NAME_PATTERN.match(l)`: `^section-(\d{2})-([a-zA-Z0-9_-]+)$`.
Returns the two digit characters of group 1 and the characters of group 2. -/
def matchSection (l : Str) : Option (Char × Char × Str) :=
  match l.drop 8 with
  | d1 :: d2 :: c :: name =>
    if leadsWith "section-".data l = true ∧ d1.isDigit = true ∧ d2.isDigit = true ∧
        c = '-' ∧ name ≠ [] ∧ name.all isNameChar = true
    then some (d1, d2, name) else none
  | _ => none

/-- Numeric value of the two-digit group. -/
def numOf (d1 d2 : Char) : Nat :=
  (d1.toNat - 48) * 10 + (d2.toNat - 48)

/-- `int(SECTION_NAME_PATTERN.match(x).group(1))`, with default 0 where the
pattern does not match (the code only applies it to matching strings). -/
def keyOf (s : Str) : Nat :=
  match matchSection s with
  | some (d1, d2, _) => numOf d1 d2
  | none => 0

/-- The two-digit group as a pair of characters (the code keeps `group(1)`
as a string in its `seen_numbers` set). -/
def pairOf (s : Str) : Char × Char :=
  match matchSection s with
  | some (d1, d2, _) => (d1, d2)
  | none => (' ', ' ')

/-- An ASCII apostrophe, as used in the error messages. -/
def squote : Char := Char.ofNat 39

/-- Decimal rendering of a natural number. -/
def natStr (n : Nat) : Str := (toString n).data

/-- Python `f"{n:02d}"`. -/
def twoDigit (n : Nat) : Str :=
  if n < 10 then '0' :: natStr n else natStr n

/-- Error message of the missing-block failure. -/
def noBlockMsg : Str :=
  ("No SECTION_MANIFEST block found in index.md. index.md must start with a " ++
   "SECTION_MANIFEST block. See SKILL.md step 18 for the required format.").data

/-- Error message of the unclosed-block failure. -/
def notClosedMsg : Str :=
  "SECTION_MANIFEST block not closed (missing END_MANIFEST -->)".data

/-- Error message of the empty-block failure. -/
def emptyMsg : Str :=
  "SECTION_MANIFEST block is empty. Add section definitions, one per line.".data

/-- Error message of the invalid-section-name failure. -/
def invalidMsg (ln : Nat) (line : Str) : Str :=
  "Invalid section name on line ".data ++ natStr ln ++ ": ".data ++
    [squote] ++ line ++ [squote] ++
    (". Expected format: section-NN-name (e.g., section-01-foundation). " ++
     "Section numbers must be two digits (01, 02, etc.).").data

/-- Error message of the duplicate-section-number failure. -/
def dupMsg (ln : Nat) (line : Str) (d1 d2 : Char) : Str :=
  "Duplicate section number on line ".data ++ natStr ln ++ ": ".data ++
    [squote] ++ line ++ [squote] ++ ". Section ".data ++ [d1, d2] ++
    " already defined.".data

/-- Error message of the final (no-valid-sections) failure branch. -/
def noValidMsg : Str :=
  "No valid sections found in SECTION_MANIFEST block".data

/-- One numbering-gap warning. -/
def gapMsg (expected found : Nat) : Str :=
  "Section numbering gap: expected section-".data ++ twoDigit expected ++
    ", found section-".data ++ twoDigit found

/-- The per-line loop of `parse_manifest_block`: skip blank lines, fail on a
non-matching line or a duplicate number, otherwise accept the stripped line. -/
def parseLines : List Str → Nat → List (Char × Char) → Except Str (List Str)
  | [], _, _ => .ok []
  | l :: rest, ln, seen =>
    let s := strip l
    if s = [] then parseLines rest (ln + 1) seen
    else
      match matchSection s with
      | none => .error (invalidMsg ln s)
      | some (d1, d2, _) =>
        if (d1, d2) ∈ seen then .error (dupMsg ln s d1 d2)
        else
          match parseLines rest (ln + 1) ((d1, d2) :: seen) with
          | .error e => .error e
          | .ok secs => .ok (s :: secs)

/-- The two-digit groups of the non-blank lines, in order (the values the
loop would feed into its `seen_numbers` set). -/
def pairsOf (lines : List Str) : List (Char × Char) :=
  (lines.filter (fun l => !(strip l).isEmpty)).map (fun l => pairOf (strip l))

/-- Marker location and block extraction of `parse_manifest_block`
(the first three failure exits). -/
def extractBlock (content : Str) : Except Str Str :=
  match findSub content MANIFEST_START with
  | none => .error noBlockMsg
  | some si =>
    match findSubFrom content MANIFEST_END si with
    | none => .error notClosedMsg
    | some ei =>
      let bs := si + MANIFEST_START.length
      let bc := strip ((content.drop bs).take (ei - bs))
      if bc = [] then .error emptyMsg else .ok bc

/-- `sections.sort(key=lambda x: int(SECTION_NAME_PATTERN.match(x).group(1)))`. -/
def sortSections (l : List Str) : List Str :=
  List.insertionSort (fun a b => keyOf a ≤ keyOf b) l

/-- The sequential-numbering warning loop of `parse_manifest_block`. -/
def gapWarnings : List Str → Nat → List Str
  | [], _ => []
  | s :: rest, expected =>
    (if keyOf s ≠ expected then [gapMsg expected (keyOf s)] else []) ++
      gapWarnings rest (keyOf s + 1)

/-- Return value of `parse_manifest_block`. -/
structure ParseResult where
  success : Bool
  sections : List Str
  error : Option Str
  warnings : List Str
deriving Repr, DecidableEq

/-- `parse_manifest_block` from sections.py. -/
def parse_manifest_block (content : Str) : ParseResult :=
  match extractBlock content with
  | .error e => ⟨false, [], some e, []⟩
  | .ok bc =>
    match parseLines (splitNl bc) 1 [] with
    | .error e => ⟨false, [], some e, []⟩
    | .ok secs =>
      if secs = [] then ⟨false, [], some noValidMsg, []⟩
      else ⟨true, sortSections secs, none, gapWarnings (sortSections secs) 1⟩

/-- Return value of `check_index_format`. -/
structure IndexFormat where
  file_exists : Bool
  has_manifest : Bool
  manifest_valid : Bool
  sections : List Str
  error : Option Str
  warnings : List Str
deriving Repr, DecidableEq

/-- Error message of `check_index_format` for an absent index.md. -/
def noIndexMsg : Str := "index.md does not exist".data

/-- Error message of `check_index_format` for an index.md without a block. -/
def missingManifestMsg : Str :=
  ("index.md is missing SECTION_MANIFEST block. index.md must start with a " ++
   "SECTION_MANIFEST block. See SKILL.md step 18 for the required format.").data

/-- `check_index_format` from sections.py.  The index.md file is modelled as
`Option Str`: `none` when the file does not exist, otherwise its content. -/
def check_index_format (indexContent : Option Str) : IndexFormat :=
  match indexContent with
  | none => ⟨false, false, false, [], some noIndexMsg, []⟩
  | some content =>
    if (findSub content MANIFEST_START).isSome then
      let r := parse_manifest_block content
      ⟨true, true, r.success, r.sections, r.error, r.warnings⟩
    else ⟨true, false, false, [], some missingManifestMsg, []⟩

/-- The glob `section-*.md` of `get_completed_sections`. -/
def globSectionMd (name : Str) : Bool :=
  leadsWith "section-".data name && trailsWith ".md".data name

/-- `Path.stem` for a name matched by `section-*.md`: drop the `.md` suffix. -/
def stemMd (name : Str) : Str :=
  name.take (name.length - 3)

/-- Maximal leading digit run. -/
def digitRun (l : Str) : Str := l.takeWhile Char.isDigit

/-- Value of a string of decimal digits. -/
def strToNatD (l : Str) : Nat :=
  l.foldl (fun a c => a * 10 + (c.toNat - 48)) 0

/-- `re.search(r'section-(\d+)', x)` followed by `int(...group(1))`: the value
of the first digit run immediately following an occurrence of `section-`. -/
def searchSectionNum : Str → Option Nat
  | [] => none
  | c :: t =>
    if leadsWith "section-".data (c :: t) then
      if digitRun ((c :: t).drop 8) = [] then searchSectionNum t
      else some (strToNatD (digitRun ((c :: t).drop 8)))
    else searchSectionNum t

/-- Sort key of `get_completed_sections`; only applied where the search hits. -/
def keyNum (s : Str) : Nat := (searchSectionNum s).getD 0

/-- `get_completed_sections` from sections.py.  The sections directory is
modelled as `Option (List Str)`: `none` when the directory does not exist,
otherwise the list of file names in it.  The result is `none` exactly when the
code raises: `re.search` returns `None` on some stem and `.group(1)` fails
with `AttributeError` inside the sort key. -/
def get_completed_sections (dirFiles : Option (List Str)) : Option (List Str) :=
  match dirFiles with
  | none => some []
  | some files =>
    let completed := (files.filter globSectionMd).map stemMd
    if completed.all (fun s => (searchSectionNum s).isSome) then
      some (List.insertionSort (fun a b => keyNum a ≤ keyNum b) completed)
    else none

/-- Return value of `check_section_progress`. -/
structure SectionProgress where
  state : Str
  index_exists : Bool
  defined_sections : List Str
  completed_sections : List Str
  missing_sections : List Str
  next_section : Option Str
  progress : Str
  index_format : IndexFormat
deriving Repr, DecidableEq

/-- The state if-chain of `check_section_progress` (lines 287-299 of
sections.py), factored out verbatim. -/
def progressState (dirExists idxExists valid : Bool)
    (completed missing defined : List Str) : Str :=
  if dirExists = false ∨ (idxExists = false ∧ completed = []) then "fresh".data
  else if idxExists = true ∧ valid = false then "invalid_index".data
  else if idxExists = true ∧ completed = [] then "has_index".data
  else if idxExists = true ∧ missing ≠ [] then "partial".data
  else if idxExists = true ∧ missing = [] ∧ defined ≠ [] then "complete".data
  else "fresh".data

/-- `check_section_progress` from sections.py.  The planning directory is
modelled by the `sections/` directory listing (`none` when absent or not a
directory) and the content of `sections/index.md` (`none` when absent).  A
`none` result models the uncaught `AttributeError` escaping from
`get_completed_sections`. -/
def check_section_progress (dirFiles : Option (List Str)) (indexContent : Option Str) :
    Option SectionProgress :=
  let dirExists := dirFiles.isSome
  let idxExists := indexContent.isSome
  let fmt : IndexFormat :=
    if idxExists then check_index_format indexContent
    else ⟨false, false, false, [], none, []⟩
  match (if dirExists then get_completed_sections dirFiles else some []) with
  | none => none
  | some completed =>
    let defined := fmt.sections
    let missing := defined.filter (fun s => decide (s ∉ completed))
    some ⟨progressState dirExists idxExists fmt.manifest_valid completed missing defined,
          idxExists, defined, completed, missing, missing.head?,
          (if defined.length > 0 then
             natStr completed.length ++ "/".data ++ natStr defined.length
           else "0/0".data),
          fmt⟩

/-- The `files` dict produced by `scan_planning_files`. -/
structure FilesFound where
  research : Bool
  interview : Bool
  spec : Bool
  plan : Bool
  integration_notes : Bool
  plan_tdd : Bool
  reviews : List Str
  sections : List Str
  sections_index : Bool
deriving Repr, DecidableEq

/-- Python `f"{x}"` for an optional value (`None` renders as `"None"`). -/
def strOfOpt (o : Option Str) : Str :=
  match o with
  | some s => s
  | none => "None".data

/-- `infer_resume_step` from setup-planning-session.py. -/
def infer_resume_step (files : FilesFound) (sp : SectionProgress) : Option Nat × Str :=
  if files.sections_index = true ∧ sp.state = "complete".data then
    (none, "complete".data)
  else if files.sections_index = true ∧
      (sp.state = "partial".data ∨ sp.state = "has_index".data) then
    (some 19, "sections ".data ++ sp.progress ++ ", next: ".data ++ strOfOpt sp.next_section)
  else if files.sections ≠ [] then (some 18, "section files exist but no index".data)
  else if files.plan_tdd = true then (some 17, "TDD plan complete".data)
  else if files.integration_notes = true then (some 15, "feedback integrated".data)
  else if files.reviews ≠ [] then (some 14, "external review complete".data)
  else if files.plan = true then (some 12, "implementation plan complete".data)
  else if files.spec = true then (some 11, "spec complete".data)
  else if files.interview = true then (some 10, "interview complete".data)
  else if files.research = true then (some 8, "research complete".data)
  else (some 6, "none".data)

/-- One TODO item from todos.py. -/
structure TodoItem where
  content : String
  status : String
  activeForm : String
deriving Repr, DecidableEq

/-- `TODO_ITEMS` from todos.py: `(content, activeForm, step_number)` triples. -/
def TODO_ITEMS : List (String × String × Nat) :=
  [("Check context / offer compaction", "Checking context", 0),
   ("Print intro and validate environment", "Validating environment", 1),
   ("Handle environment errors", "Handling environment errors", 2),
   ("Validate spec file input", "Validating spec file input", 3),
   ("Setup planning session", "Setting up planning session", 4),
   ("Research decision", "Deciding on research approach", 6),
   ("Execute research", "Executing research", 7),
   ("Detailed interview", "Conducting detailed interview", 8),
   ("Save interview transcript", "Saving interview transcript", 9),
   ("Write initial spec", "Writing initial spec", 10),
   ("Generate implementation plan", "Generating implementation plan", 11),
   ("Context check (pre-review)", "Checking context (pre-review)", 12),
   ("External LLM review", "Running external LLM review", 13),
   ("Integrate external feedback", "Integrating external feedback", 14),
   ("User review of integrated plan", "Waiting for user review", 15),
   ("Apply TDD approach", "Applying TDD approach", 16),
   ("Context check (pre-split)", "Checking context (pre-split)", 17),
   ("Create section index", "Creating section index", 18),
   ("Generate section TODOs", "Generating section TODOs", 19),
   ("Write section files", "Writing section files", 20),
   ("Final status and cleanup", "Finalizing status and cleanup", 21),
   ("Output summary", "Outputting summary", 22)]

/-- Status of a table entry relative to the current step. -/
def renderStatus (current_step : Int) (step : Nat) : String :=
  if (step : Int) < current_step then "completed"
  else if (step : Int) = current_step then "in_progress"
  else "pending"

/-- Rendering of one table entry. -/
def renderItem (current_step : Int) (entry : String × String × Nat) : TodoItem :=
  ⟨entry.1, renderStatus current_step entry.2.2, entry.2.1⟩

/-- The step-table walk of `generate_todos`. -/
def buildTable (current_step : Int) (sectionTodos : Option (List TodoItem)) :
    List (String × String × Nat) → List TodoItem
  | [] => []
  | e :: rest =>
    match sectionTodos with
    | some st =>
      if e.1 = "Generate section TODOs" then buildTable current_step sectionTodos rest
      else if e.1 = "Write section files" then st ++ buildTable current_step sectionTodos rest
      else renderItem current_step e :: buildTable current_step sectionTodos rest
    | none => renderItem current_step e :: buildTable current_step sectionTodos rest

/-- One optional path context item of `generate_todos`.  Python truthiness:
the argument contributes an item when it is not `None` and non-empty. -/
def ctxItem (o : Option String) (c af : String) : List TodoItem :=
  match o with
  | some s => if s = "" then [] else [⟨c ++ s, "completed", af⟩]
  | none => []

/-- The context items prepended by `generate_todos`, in the fixed order; the
boolean flag contributes whenever it is not `None`. -/
def ctxItems (plugin_root planning_dir initial_file : Option String)
    (context_check_enabled : Option Bool) : List TodoItem :=
  ctxItem plugin_root "plugin_root=" "Context: plugin_root" ++
  ctxItem planning_dir "planning_dir=" "Context: planning_dir" ++
  ctxItem initial_file "initial_file=" "Context: initial_file" ++
  (match context_check_enabled with
   | some b => [⟨"context_check_enabled=" ++ (if b then "true" else "false"),
                "completed", "Context: context_check_enabled"⟩]
   | none => [])

/-- `generate_todos` from todos.py. -/
def generate_todos (current_step : Int) (section_todos : Option (List TodoItem))
    (plugin_root planning_dir initial_file : Option String)
    (context_check_enabled : Option Bool) : List TodoItem :=
  ctxItems plugin_root planning_dir initial_file context_check_enabled ++
    buildTable current_step section_todos TODO_ITEMS

/-- `generate_section_todo_items` from todos.py. -/
def generate_section_todo_items (all_sections completed_sections : List String) :
    List TodoItem :=
  all_sections.map (fun s =>
    ⟨"Read section-splitting.md and write " ++ s,
     (if s ∈ completed_sections then "completed" else "pending"),
     "Writing " ++ s⟩)

/-- Concrete section-progress record: a two-section manifest with the first
section completed (used as a concrete evaluation example). -/
def c2record : SectionProgress :=
  ⟨"partial".data, true,
   ["section-01-setup".data, "section-02-api".data],
   ["section-01-setup".data],
   ["section-02-api".data],
   some "section-02-api".data,
   "1/2".data,
   ⟨true, true, true, ["section-01-setup".data, "section-02-api".data], none, []⟩⟩

/-! ### String-level helper lemmas -/

theorem dropWhile_head_false {α} {p : α → Bool} :
    ∀ {l : List α} {x : α} {xs : List α}, l.dropWhile p = x :: xs → p x = false := by
  intro l
  induction l with
  | nil => intro x xs h; simp [List.dropWhile] at h
  | cons a t ih =>
    intro x xs h
    rw [List.dropWhile_cons] at h
    by_cases hp : p a = true
    · rw [if_pos hp] at h; exact ih h
    · rw [if_neg hp] at h
      injection h with h1 h2
      subst h1
      simpa using hp

theorem all_space_of_strip_eq_nil {l : Str} (h : strip l = []) :
    ∀ c ∈ l, isPySpace c = true := by
  unfold strip at h
  rw [List.reverse_eq_nil_iff, List.dropWhile_eq_nil_iff] at h
  intro c hc
  rw [← List.takeWhile_append_dropWhile isPySpace l] at hc
  rcases List.mem_append.mp hc with h1 | h2
  · exact List.mem_takeWhile_imp h1
  · exact h c (List.mem_reverse.mpr h2)

theorem exists_nonspace_of_strip_ne_nil {l : Str} (h : strip l ≠ []) :
    ∃ c ∈ strip l, isPySpace c = false := by
  have h2 : (l.dropWhile isPySpace).reverse.dropWhile isPySpace ≠ [] := by
    intro hnil
    apply h
    unfold strip
    rw [hnil]
    rfl
  rcases List.exists_cons_of_ne_nil h2 with ⟨c, cs, hc⟩
  refine ⟨c, ?_, dropWhile_head_false hc⟩
  show c ∈ strip l
  unfold strip
  rw [hc]
  exact List.mem_reverse.mpr (List.mem_cons_self _ _)

theorem splitNl_cons (c : Char) (t : Str) :
    splitNl (c :: t) =
      if c = '\n' then [] :: splitNl t
      else
        match splitNl t with
        | [] => [[c]]
        | p :: ps => (c :: p) :: ps := rfl

theorem splitNl_ne_nil : ∀ l : Str, splitNl l ≠ [] := by
  intro l
  cases l with
  | nil => simp [splitNl]
  | cons c t =>
    rw [splitNl_cons]
    by_cases hc : c = '\n'
    · rw [if_pos hc]; simp
    · rw [if_neg hc]
      cases hsp : splitNl t with
      | nil => simp
      | cons p ps => simp

theorem mem_splitNl_of_mem {c : Char} :
    ∀ {l : Str}, c ∈ l → c ≠ '\n' → ∃ p ∈ splitNl l, c ∈ p := by
  intro l
  induction l with
  | nil => intro h; cases h
  | cons a t ih =>
    intro hc hne
    by_cases ha : a = '\n'
    · rcases List.mem_cons.mp hc with rfl | hct
      · exact absurd ha hne
      · rcases ih hct hne with ⟨p, hp, hcp⟩
        refine ⟨p, ?_, hcp⟩
        rw [splitNl_cons, if_pos ha]
        exact List.mem_cons_of_mem _ hp
    · cases hsp : splitNl t with
      | nil => exact absurd hsp (splitNl_ne_nil t)
      | cons p ps =>
        have heq : splitNl (a :: t) = (a :: p) :: ps := by
          rw [splitNl_cons, if_neg ha, hsp]
        rcases List.mem_cons.mp hc with hca | hct
        · subst hca
          exact ⟨c :: p, by rw [heq]; exact List.mem_cons_self _ _, List.mem_cons_self _ _⟩
        · rcases ih hct hne with ⟨q, hq, hcq⟩
          rcases List.mem_cons.mp (hsp ▸ hq) with hqp | hqs
          · subst hqp
            exact ⟨a :: q, by rw [heq]; exact List.mem_cons_self _ _,
              List.mem_cons_of_mem _ hcq⟩
          · exact ⟨q, by rw [heq]; exact List.mem_cons_of_mem _ hqs, hcq⟩

theorem strip_ne_nil_of_mem {c : Char} {l : Str} (hc : c ∈ l) (hns : isPySpace c = false) :
    strip l ≠ [] := by
  intro h
  rw [all_space_of_strip_eq_nil h c hc] at hns
  cases hns

/-- A non-empty stripped block has at least one line whose strip is non-empty. -/
theorem exists_good_line {y : Str} (h : strip y ≠ []) :
    ∃ p ∈ splitNl (strip y), strip p ≠ [] := by
  rcases exists_nonspace_of_strip_ne_nil h with ⟨c, hc, hcf⟩
  have hcn : c ≠ '\n' := by
    intro h2; rw [h2] at hcf; cases hcf
  rcases mem_splitNl_of_mem hc hcn with ⟨p, hp, hcp⟩
  exact ⟨p, hp, strip_ne_nil_of_mem hcp hcf⟩

/-! ### parseLines lemmas -/

/-- On success the accepted identifiers are exactly the non-blank stripped lines. -/
theorem parseLines_ok_sections :
    ∀ {lines : List Str} {ln : Nat} {seen : List (Char × Char)} {secs : List Str},
      parseLines lines ln seen = .ok secs →
      secs = (lines.map strip).filter (fun s => !s.isEmpty) := by
  intro lines
  induction lines with
  | nil => intro ln seen secs h; injection h with h; simp [← h]
  | cons l rest ih =>
    intro ln seen secs h
    rw [parseLines] at h
    by_cases hs : strip l = []
    · rw [if_pos hs] at h
      have h2 := ih h
      simp [hs, h2]
    · rw [if_neg hs] at h
      split at h
      · cases h
      · rename_i d1 d2 nm hm
        split at h
        · cases h
        · rename_i hseen
          split at h
          · cases h
          · rename_i secs2 hrec
            injection h with h
            subst h
            have h2 := ih hrec
            have hne : (strip l).isEmpty = false := by
              cases hx : strip l with
              | nil => exact absurd hx hs
              | cons a b => rfl
            simp [h2, hne]

/-- On success every accepted line matches the pattern, and the two-digit
groups are distinct among themselves and disjoint from the seen set. -/
theorem parseLines_ok_props :
    ∀ {lines : List Str} {ln : Nat} {seen : List (Char × Char)} {secs : List Str},
      parseLines lines ln seen = .ok secs →
      (∀ s ∈ secs, (matchSection s).isSome = true) ∧
      (secs.map pairOf).Nodup ∧
      (∀ q ∈ secs.map pairOf, q ∉ seen) := by
  intro lines
  induction lines with
  | nil =>
    intro ln seen secs h
    injection h with h
    subst h
    exact ⟨by simp, by simp, by simp⟩
  | cons l rest ih =>
    intro ln seen secs h
    rw [parseLines] at h
    by_cases hs : strip l = []
    · rw [if_pos hs] at h; exact ih h
    · rw [if_neg hs] at h
      split at h
      · cases h
      · rename_i d1 d2 nm hm
        split at h
        · cases h
        · rename_i hseen
          split at h
          · cases h
          · rename_i secs2 hrec
            injection h with h
            subst h
            obtain ⟨ihm, ihnd, ihseen⟩ := ih hrec
            have hpair : pairOf (strip l) = (d1, d2) := by
              simp [pairOf, hm]
            refine ⟨?_, ?_, ?_⟩
            · intro s hsm
              rcases List.mem_cons.mp hsm with rfl | hs2
              · rw [hm]; rfl
              · exact ihm s hs2
            · simp only [List.map_cons, hpair]
              refine List.Nodup.cons ?_ ihnd
              intro hmem
              exact (ihseen _ hmem) (List.mem_cons_self _ _)
            · intro q hq
              simp only [List.map_cons, hpair] at hq
              rcases List.mem_cons.mp hq with rfl | hq2
              · exact hseen
              · intro hqs
                exact (ihseen q hq2) (List.mem_cons_of_mem _ hqs)

/-- On success with some non-blank line, the accepted list is non-empty. -/
theorem parseLines_ok_ne_nil {lines : List Str} {ln : Nat} {seen : List (Char × Char)}
    {secs : List Str} (h : parseLines lines ln seen = .ok secs)
    (hg : ∃ l ∈ lines, strip l ≠ []) : secs ≠ [] := by
  rcases hg with ⟨l, hl, hsl⟩
  rw [parseLines_ok_sections h]
  have hmem : strip l ∈ lines.map strip := List.mem_map_of_mem strip hl
  have hne : (strip l).isEmpty = false := by
    cases hx : strip l with
    | nil => exact absurd hx hsl
    | cons a b => rfl
  exact List.ne_nil_of_mem (List.mem_filter.mpr ⟨hmem, by rw [hne]; rfl⟩)

/-- Loop failures are invalid-name or duplicate-number messages, never the
final no-valid-sections message. -/
theorem parseLines_error_ne_noValid :
    ∀ {lines : List Str} {ln : Nat} {seen : List (Char × Char)} {e : Str},
      parseLines lines ln seen = .error e → e ≠ noValidMsg := by
  intro lines
  induction lines with
  | nil => intro ln seen e h; cases h
  | cons l rest ih =>
    intro ln seen e h
    rw [parseLines] at h
    by_cases hs : strip l = []
    · rw [if_pos hs] at h; exact ih h
    · rw [if_neg hs] at h
      split at h
      · injection h with h
        subst h
        intro hbad
        have h0 : (invalidMsg ln (strip l)).head? = some 'I' := rfl
        rw [hbad] at h0
        exact absurd h0 (by decide)
      · rename_i d1 d2 nm hm
        split at h
        · rename_i hseen
          injection h with h
          subst h
          intro hbad
          have h0 : (dupMsg ln (strip l) d1 d2).head? = some 'D' := rfl
          rw [hbad] at h0
          exact absurd h0 (by decide)
        · rename_i hseen
          split at h
          · rename_i e2 hrec
            injection h with h
            subst h
            exact ih hrec
          · cases h

/-! ### extractBlock lemmas -/

theorem extractBlock_error_cases {content e : Str} (h : extractBlock content = .error e) :
    e = noBlockMsg ∨ e = notClosedMsg ∨ e = emptyMsg := by
  unfold extractBlock at h
  split at h
  · injection h with h; exact Or.inl h.symm
  · split at h
    · injection h with h; exact Or.inr (Or.inl h.symm)
    · dsimp only at h
      split at h
      · injection h with h; exact Or.inr (Or.inr h.symm)
      · cases h

theorem extractBlock_ok_shape {content bc : Str} (h : extractBlock content = .ok bc) :
    bc ≠ [] ∧ ∃ y, bc = strip y := by
  unfold extractBlock at h
  split at h
  · cases h
  · split at h
    · cases h
    · dsimp only at h
      split at h
      · cases h
      · rename_i hbc
        injection h with h
        subst h
        exact ⟨hbc, _, rfl⟩

/-! ### C9: the final failure branch of parse_manifest_block is unreachable -/

/-- C9: for every input text, `parse_manifest_block` never returns the error
"No valid sections found in SECTION_MANIFEST block" — once the marker and
non-emptiness checks pass, the line loop either fails with a different error
or accepts at least one section, so the final failure branch cannot fire. -/
theorem spec2proof_C9 (content : Str) :
    decide ((parse_manifest_block content).error = some noValidMsg) = false := by
  rw [decide_eq_false_iff_not]
  intro hbad
  unfold parse_manifest_block at hbad
  split at hbad
  · rename_i e hE
    dsimp only at hbad
    injection hbad with hbad
    rcases extractBlock_error_cases hE with h | h | h <;> rw [h] at hbad <;>
      exact absurd hbad (by decide)
  · rename_i bc hE
    split at hbad
    · rename_i e hP
      dsimp only at hbad
      injection hbad with hbad
      exact parseLines_error_ne_noValid hP hbad
    · rename_i secs hP
      split at hbad
      · rename_i hs
        obtain ⟨hne, y, hy⟩ := extractBlock_ok_shape hE
        subst hy
        rcases exists_good_line hne with ⟨p, hp, hps⟩
        exact absurd hs (parseLines_ok_ne_nil hP ⟨p, hp, hps⟩)
      · dsimp only at hbad
        cases hbad

/-! ### C10: failing parses carry no sections and no warnings -/

/-- C10: whenever `parse_manifest_block` reports failure, both the sections
list and the warnings list are empty — every failure exit happens before the
gap-warning loop can append anything. -/
theorem spec2proof_C10 (content : Str)
    (h : (parse_manifest_block content).success = false) :
    (parse_manifest_block content).sections = [] ∧
    (parse_manifest_block content).warnings = [] := by
  unfold parse_manifest_block at h ⊢
  cases hE : extractBlock content with
  | error e => exact ⟨rfl, rfl⟩
  | ok bc =>
    rw [hE] at h
    dsimp only at h ⊢
    cases hP : parseLines (splitNl bc) 1 [] with
    | error e => exact ⟨rfl, rfl⟩
    | ok secs =>
      rw [hP] at h
      dsimp only at h ⊢
      by_cases hs : secs = []
      · rw [if_pos hs]
        exact ⟨rfl, rfl⟩
      · rw [if_neg hs] at h
        dsimp only at h
        cases h

/-! ### Digit and sort-key lemmas -/

theorem matchSection_digits {s : Str} {d1 d2 : Char} {nm : Str}
    (h : matchSection s = some (d1, d2, nm)) :
    d1.isDigit = true ∧ d2.isDigit = true := by
  unfold matchSection at h
  split at h
  · split at h
    · rename_i hcond
      injection h with h
      injection h with h1 h
      injection h with h2 h3
      subst h1
      subst h2
      exact ⟨hcond.2.1, hcond.2.2.1⟩
    · cases h
  · cases h

theorem isDigit_bounds {c : Char} (h : c.isDigit = true) :
    48 ≤ c.toNat ∧ c.toNat ≤ 57 := by
  unfold Char.isDigit at h
  rw [Bool.and_eq_true, decide_eq_true_iff, decide_eq_true_iff] at h
  exact ⟨h.1, h.2⟩

theorem charToNat_inj {c1 c2 : Char} (h : c1.toNat = c2.toNat) : c1 = c2 :=
  Char.ext (UInt32.ext h)

theorem numOf_inj {a1 b1 a2 b2 : Char} (h1 : a1.isDigit = true) (h2 : b1.isDigit = true)
    (h3 : a2.isDigit = true) (h4 : b2.isDigit = true)
    (h : numOf a1 b1 = numOf a2 b2) : a1 = a2 ∧ b1 = b2 := by
  obtain ⟨l1, r1⟩ := isDigit_bounds h1
  obtain ⟨l2, r2⟩ := isDigit_bounds h2
  obtain ⟨l3, r3⟩ := isDigit_bounds h3
  obtain ⟨l4, r4⟩ := isDigit_bounds h4
  unfold numOf at h
  have e1 : a1.toNat = a2.toNat := by omega
  have e2 : b1.toNat = b2.toNat := by omega
  exact ⟨charToNat_inj e1, charToNat_inj e2⟩

theorem keys_nodup {secs : List Str} (hm : ∀ s ∈ secs, (matchSection s).isSome = true)
    (hp : (secs.map pairOf).Nodup) : (secs.map keyOf).Nodup := by
  have hp2 : secs.Pairwise (fun a b => pairOf a ≠ pairOf b) := List.pairwise_map.mp hp
  have hk : secs.Pairwise (fun a b => keyOf a ≠ keyOf b) := by
    refine List.Pairwise.imp_of_mem ?_ hp2
    intro a b ha hb hne hkey
    apply hne
    obtain ⟨va, hva⟩ := Option.isSome_iff_exists.mp (hm a ha)
    obtain ⟨vb, hvb⟩ := Option.isSome_iff_exists.mp (hm b hb)
    obtain ⟨a1, a2, na⟩ := va
    obtain ⟨b1, b2, nb⟩ := vb
    have hka : keyOf a = numOf a1 a2 := by simp [keyOf, hva]
    have hkb : keyOf b = numOf b1 b2 := by simp [keyOf, hvb]
    have hpa : pairOf a = (a1, a2) := by simp [pairOf, hva]
    have hpb : pairOf b = (b1, b2) := by simp [pairOf, hvb]
    obtain ⟨da1, da2⟩ := matchSection_digits hva
    obtain ⟨db1, db2⟩ := matchSection_digits hvb
    have hinj := numOf_inj da1 da2 db1 db2 (by rw [← hka, ← hkb, hkey])
    rw [hpa, hpb, hinj.1, hinj.2]
  exact List.pairwise_map.mpr hk

theorem sortSections_perm (l : List Str) : (sortSections l).Perm l :=
  List.perm_insertionSort _ _

theorem sortSections_sorted (l : List Str) :
    (sortSections l).Pairwise (fun a b => keyOf a ≤ keyOf b) := by
  haveI h1 : IsTotal Str (fun a b => keyOf a ≤ keyOf b) := ⟨fun a b => Nat.le_total _ _⟩
  haveI h2 : IsTrans Str (fun a b => keyOf a ≤ keyOf b) :=
    ⟨fun a b c hab hbc => Nat.le_trans hab hbc⟩
  exact List.sorted_insertionSort _ _

/-! ### Structure of a successful parse -/

theorem parse_success_struct {content : Str}
    (h : (parse_manifest_block content).success = true) :
    ∃ bc secs, extractBlock content = .ok bc ∧
      parseLines (splitNl bc) 1 [] = .ok secs ∧ secs ≠ [] ∧
      (parse_manifest_block content).sections = sortSections secs ∧
      (parse_manifest_block content).warnings = gapWarnings (sortSections secs) 1 ∧
      (parse_manifest_block content).error = none := by
  unfold parse_manifest_block at h ⊢
  cases hE : extractBlock content with
  | error e => rw [hE] at h; cases h
  | ok bc =>
    rw [hE] at h
    dsimp only at h ⊢
    cases hP : parseLines (splitNl bc) 1 [] with
    | error e => rw [hP] at h; cases h
    | ok secs =>
      rw [hP] at h
      dsimp only at h ⊢
      by_cases hs : secs = []
      · rw [if_pos hs] at h; cases h
      · rw [if_neg hs]
        exact ⟨bc, secs, rfl, hP, hs, rfl, rfl, rfl⟩

theorem parse_sections_pairwise_lt {content : Str}
    (h : (parse_manifest_block content).success = true) :
    (parse_manifest_block content).sections.Pairwise (fun a b => keyOf a < keyOf b) := by
  obtain ⟨bc, secs, hE, hP, hne, hsec, hw, he⟩ := parse_success_struct h
  rw [hsec]
  obtain ⟨hm, hnd, hsn⟩ := parseLines_ok_props hP
  have hperm : (sortSections secs).Perm secs := sortSections_perm secs
  have hm2 : ∀ s ∈ sortSections secs, (matchSection s).isSome = true :=
    fun s hs => hm s (hperm.mem_iff.mp hs)
  have hnd2 : ((sortSections secs).map pairOf).Nodup :=
    ((hperm.map pairOf).nodup_iff).mpr hnd
  have hk : ((sortSections secs).map keyOf).Nodup := keys_nodup hm2 hnd2
  have hsorted := sortSections_sorted secs
  have hkp : (sortSections secs).Pairwise (fun a b => keyOf a ≠ keyOf b) :=
    List.pairwise_map.mp hk
  refine (List.pairwise_and_iff.mpr ⟨hsorted, hkp⟩).imp ?_
  intro a b hab
  exact Nat.lt_of_le_of_ne hab.1 hab.2

theorem parse_success_sections_ne_nil {content : Str}
    (h : (parse_manifest_block content).success = true) :
    (parse_manifest_block content).sections ≠ [] := by
  obtain ⟨bc, secs, hE, hP, hne, hsec, hw, he⟩ := parse_success_struct h
  rw [hsec]
  intro hnil
  exact hne ((hnil ▸ sortSections_perm secs).symm.eq_nil)

/-! ### C5: sections are sorted numerically on success -/

/-- C5: on every successful parse, the returned sections list is a permutation
of the accepted identifiers (the non-blank stripped lines of the block) and is
strictly ascending in the numeric value of the two-digit group — so the output
order is independent of input order and of the lexical content of the name
part. -/
theorem spec2proof_C5 (content : Str)
    (h : (parse_manifest_block content).success = true) :
    ∃ bc secs, extractBlock content = .ok bc ∧
      parseLines (splitNl bc) 1 [] = .ok secs ∧
      secs = ((splitNl bc).map strip).filter (fun s => !s.isEmpty) ∧
      (parse_manifest_block content).sections.Perm secs ∧
      (parse_manifest_block content).sections.Pairwise (fun a b => keyOf a < keyOf b) := by
  obtain ⟨bc, secs, hE, hP, hne, hsec, hw, he⟩ := parse_success_struct h
  refine ⟨bc, secs, hE, hP, parseLines_ok_sections hP, ?_, parse_sections_pairwise_lt h⟩
  rw [hsec]
  exact sortSections_perm secs

/-- Witness for C5: input order 03, 01, 02 parses successfully and comes out
in numeric order 01, 02, 03. -/
theorem spec2proof_C5_witness :
    (parse_manifest_block ("<!-- SECTION_MANIFEST\nsection-03-third\nsection-01-first\nsection-02-second\nEND_MANIFEST -->").data).success = true ∧
    (parse_manifest_block ("<!-- SECTION_MANIFEST\nsection-03-third\nsection-01-first\nsection-02-second\nEND_MANIFEST -->").data).sections =
      ["section-01-first".data, "section-02-second".data, "section-03-third".data] ∧
    (∃ bc secs,
      extractBlock ("<!-- SECTION_MANIFEST\nsection-03-third\nsection-01-first\nsection-02-second\nEND_MANIFEST -->").data = .ok bc ∧
      parseLines (splitNl bc) 1 [] = .ok secs ∧
      secs = ((splitNl bc).map strip).filter (fun s => !s.isEmpty) ∧
      (parse_manifest_block ("<!-- SECTION_MANIFEST\nsection-03-third\nsection-01-first\nsection-02-second\nEND_MANIFEST -->").data).sections.Perm secs ∧
      (parse_manifest_block ("<!-- SECTION_MANIFEST\nsection-03-third\nsection-01-first\nsection-02-second\nEND_MANIFEST -->").data).sections.Pairwise
        (fun a b => keyOf a < keyOf b)) :=
  ⟨by decide, by decide, spec2proof_C5 _ (by decide)⟩

/-! ### C8: gaps warn but never fail -/

theorem pairsOf_cons_blank {l : Str} {rest : List Str} (hs : strip l = []) :
    pairsOf (l :: rest) = pairsOf rest := by
  simp [pairsOf, hs]

theorem pairsOf_cons_nonblank {l : Str} {rest : List Str} (hs : strip l ≠ []) :
    pairsOf (l :: rest) = pairOf (strip l) :: pairsOf rest := by
  have hne : (strip l).isEmpty = false := by
    cases hx : strip l with
    | nil => exact absurd hx hs
    | cons a b => rfl
  simp [pairsOf, hne]

/-- If every non-blank line matches and the two-digit groups are distinct and
unseen, the loop succeeds. -/
theorem parseLines_ok_of_matches :
    ∀ {lines : List Str} (ln : Nat) (seen : List (Char × Char)),
      (∀ l ∈ lines, strip l ≠ [] → (matchSection (strip l)).isSome = true) →
      (pairsOf lines).Nodup →
      (∀ q ∈ pairsOf lines, q ∉ seen) →
      ∃ secs, parseLines lines ln seen = .ok secs := by
  intro lines
  induction lines with
  | nil => intro ln seen hm hnd hdisj; exact ⟨[], rfl⟩
  | cons l rest ih =>
    intro ln seen hm hnd hdisj
    by_cases hs : strip l = []
    · rw [pairsOf_cons_blank hs] at hnd hdisj
      obtain ⟨secs, hsecs⟩ := ih (ln + 1) seen (fun l2 hl2 => hm l2 (List.mem_cons_of_mem _ hl2)) hnd hdisj
      refine ⟨secs, ?_⟩
      rw [parseLines, if_pos hs]
      exact hsecs
    · rw [pairsOf_cons_nonblank hs] at hnd hdisj
      obtain ⟨v, hmv⟩ := Option.isSome_iff_exists.mp (hm l (List.mem_cons_self _ _) hs)
      obtain ⟨d1, d2, nm⟩ := v
      have hpair : pairOf (strip l) = (d1, d2) := by simp [pairOf, hmv]
      rw [hpair] at hnd hdisj
      have hd1 : (d1, d2) ∉ seen := hdisj _ (List.mem_cons_self _ _)
      have hnd2 : (pairsOf rest).Nodup := hnd.of_cons
      have hhead : (d1, d2) ∉ pairsOf rest := (List.nodup_cons.mp hnd).1
      have hdisj2 : ∀ q ∈ pairsOf rest, q ∉ (d1, d2) :: seen := by
        intro q hq hqmem
        rcases List.mem_cons.mp hqmem with rfl | hq2
        · exact hhead hq
        · exact hdisj q (List.mem_cons_of_mem _ hq) hq2
      obtain ⟨secs, hsecs⟩ := ih (ln + 1) ((d1, d2) :: seen)
        (fun l2 hl2 => hm l2 (List.mem_cons_of_mem _ hl2)) hnd2 hdisj2
      refine ⟨strip l :: secs, ?_⟩
      rw [parseLines, if_neg hs]
      simp only [hmv]
      rw [if_neg hd1, hsecs]

/-- Every gap warning names a pair of distinct expected/found numbers. -/
theorem gapWarnings_shape :
    ∀ (l : List Str) (e : Nat) (w : Str), w ∈ gapWarnings l e →
      ∃ a b, a ≠ b ∧ w = gapMsg a b := by
  intro l
  induction l with
  | nil => intro e w hw; cases hw
  | cons s rest ih =>
    intro e w hw
    simp only [gapWarnings] at hw
    rcases List.mem_append.mp hw with h1 | h2
    · by_cases hk : keyOf s ≠ e
      · rw [if_pos hk] at h1
        exact ⟨e, keyOf s, Ne.symm hk, List.mem_singleton.mp h1⟩
      · rw [if_neg hk] at h1
        cases h1
    · exact ih (keyOf s + 1) w h2

/-- C8: a manifest block whose non-blank lines all match the pattern with
distinct two-digit groups always parses successfully — numbering gaps never
fail the parse — and every emitted warning names an expected number and a
distinct found number. -/
theorem spec2proof_C8 (content bc : Str)
    (hb : extractBlock content = .ok bc)
    (hm : ∀ l ∈ splitNl bc, strip l ≠ [] → (matchSection (strip l)).isSome = true)
    (hn : (pairsOf (splitNl bc)).Nodup) :
    (parse_manifest_block content).success = true ∧
    ∀ w ∈ (parse_manifest_block content).warnings, ∃ a b, a ≠ b ∧ w = gapMsg a b := by
  obtain ⟨secs, hsecs⟩ := parseLines_ok_of_matches 1 [] hm hn (by simp)
  have hsne : secs ≠ [] := by
    obtain ⟨hne, y, hy⟩ := extractBlock_ok_shape hb
    refine parseLines_ok_ne_nil hsecs ?_
    subst hy
    exact exists_good_line hne
  have hres : parse_manifest_block content =
      ⟨true, sortSections secs, none, gapWarnings (sortSections secs) 1⟩ := by
    unfold parse_manifest_block
    rw [hb]
    dsimp only
    rw [hsecs]
    dsimp only
    rw [if_neg hsne]
  rw [hres]
  exact ⟨rfl, fun w hw => gapWarnings_shape _ _ w hw⟩

/-- Witness for C8: the manifest 01, 03, 05 parses successfully with exactly
two warnings, each mentioning "gap". -/
theorem spec2proof_C8_witness :
    (extractBlock ("<!-- SECTION_MANIFEST\nsection-01-a\nsection-03-b\nsection-05-c\nEND_MANIFEST -->").data
      = .ok ("section-01-a\nsection-03-b\nsection-05-c").data) ∧
    (∀ l ∈ splitNl ("section-01-a\nsection-03-b\nsection-05-c").data,
      strip l ≠ [] → (matchSection (strip l)).isSome = true) ∧
    (pairsOf (splitNl ("section-01-a\nsection-03-b\nsection-05-c").data)).Nodup ∧
    ((parse_manifest_block ("<!-- SECTION_MANIFEST\nsection-01-a\nsection-03-b\nsection-05-c\nEND_MANIFEST -->").data).success = true ∧
     ∀ w ∈ (parse_manifest_block ("<!-- SECTION_MANIFEST\nsection-01-a\nsection-03-b\nsection-05-c\nEND_MANIFEST -->").data).warnings,
       ∃ a b, a ≠ b ∧ w = gapMsg a b) ∧
    (parse_manifest_block ("<!-- SECTION_MANIFEST\nsection-01-a\nsection-03-b\nsection-05-c\nEND_MANIFEST -->").data).warnings.length = 2 ∧
    ∀ w ∈ (parse_manifest_block ("<!-- SECTION_MANIFEST\nsection-01-a\nsection-03-b\nsection-05-c\nEND_MANIFEST -->").data).warnings,
      (findSub w "gap".data).isSome = true :=
  ⟨by rfl, by decide, by decide,
   spec2proof_C8 _ _ (by rfl) (by decide) (by decide),
   by decide, by decide⟩

/-- Witness for C10 at a concrete failing input. -/
theorem spec2proof_C10_witness :
    (parse_manifest_block "x".data).success = false ∧
    ((parse_manifest_block "x".data).sections = [] ∧
     (parse_manifest_block "x".data).warnings = []) :=
  ⟨by decide, spec2proof_C10 _ (by decide)⟩

/-! ### Counting lemmas for completed vs defined sections -/

theorem countP_mem_cons {c : Str} {cs : List Str} (hc : c ∉ cs) :
    ∀ defined : List Str,
      defined.countP (fun s => decide (s ∈ c :: cs)) =
        defined.countP (fun s => decide (s = c)) +
          defined.countP (fun s => decide (s ∈ cs)) := by
  intro defined
  induction defined with
  | nil => simp
  | cons d ds ih =>
    rw [List.countP_cons, List.countP_cons, List.countP_cons, ih]
    by_cases hdc : d = c
    · subst hdc
      have h1 : (decide (d ∈ d :: cs)) = true := by simp
      have h2 : (decide (d ∈ cs)) = false := by simpa using hc
      have h3 : (decide (d = d)) = true := by simp
      rw [h1, h2, h3, show (if (true = true) then 1 else 0) = 1 from rfl,
          show (if (false = true) then 1 else 0) = 0 from rfl]
      omega
    · have h1 : (decide (d ∈ c :: cs)) = decide (d ∈ cs) := by
        by_cases h : d ∈ cs <;> simp [List.mem_cons, hdc, h]
      have h3 : (decide (d = c)) = false := by simpa using hdc
      rw [h1, h3, show (if (false = true) then 1 else 0) = 0 from rfl]
      by_cases hb : d ∈ cs
      · rw [show (decide (d ∈ cs)) = true from by simpa using hb,
            show (if (true = true) then 1 else 0) = 1 from rfl]
        omega
      · rw [show (decide (d ∈ cs)) = false from by simpa using hb,
            show (if (false = true) then 1 else 0) = 0 from rfl]
        omega

theorem countP_eq_single {c : Str} :
    ∀ {defined : List Str}, defined.Nodup → c ∈ defined →
      defined.countP (fun s => decide (s = c)) = 1 := by
  intro defined
  induction defined with
  | nil => intro h1 h2; cases h2
  | cons d ds ih =>
    intro hnd hmem
    rw [List.countP_cons]
    rcases List.mem_cons.mp hmem with hcd | hin
    · subst hcd
      have hnotin : c ∉ ds := (List.nodup_cons.mp hnd).1
      have hz : ds.countP (fun s => decide (s = c)) = 0 := by
        rw [List.countP_eq_zero]
        intro a ha hdec
        rw [decide_eq_true_iff] at hdec
        exact hnotin (hdec ▸ ha)
      rw [hz, show (decide (c = c)) = true from by simp,
          show (if (true = true) then 1 else 0) = 1 from rfl]
    · have hdc : d ≠ c := by
        intro h
        subst h
        exact (List.nodup_cons.mp hnd).1 hin
      rw [ih (List.nodup_cons.mp hnd).2 hin,
          show (decide (d = c)) = false from by simpa using hdc,
          show (if (false = true) then 1 else 0) = 0 from rfl]

theorem countP_mem_eq_length {defined : List Str} (hd : defined.Nodup) :
    ∀ comp : List Str, comp.Nodup → (∀ x ∈ comp, x ∈ defined) →
      defined.countP (fun s => decide (s ∈ comp)) = comp.length := by
  intro comp
  induction comp with
  | nil => intro h1 h2; simp
  | cons c cs ih =>
    intro hc hsub
    rw [countP_mem_cons (List.nodup_cons.mp hc).1 defined,
        countP_eq_single hd (hsub c (List.mem_cons_self _ _)),
        ih (List.nodup_cons.mp hc).2 (fun x hx => hsub x (List.mem_cons_of_mem _ hx)),
        List.length_cons]
    omega

theorem length_filter_not_mem {defined comp : List Str} (hd : defined.Nodup)
    (hc : comp.Nodup) (hsub : ∀ x ∈ comp, x ∈ defined) :
    (defined.filter (fun s => decide (s ∉ comp))).length =
      defined.length - comp.length := by
  have hfun : (fun s => decide (¬ (decide (s ∈ comp)) = true)) =
      (fun s : Str => decide (s ∉ comp)) := by
    funext s
    by_cases h : s ∈ comp <;> simp [h]
  have h1 := List.length_eq_countP_add_countP (fun s => decide (s ∈ comp)) defined
  rw [hfun] at h1
  have h2 := countP_mem_eq_length hd comp hc hsub
  have h3 := (List.countP_eq_length_filter (fun s => decide (s ∉ comp)) defined).symm
  omega

theorem comp_length_le {defined comp : List Str} (hd : defined.Nodup)
    (hc : comp.Nodup) (hsub : ∀ x ∈ comp, x ∈ defined) :
    comp.length ≤ defined.length := by
  have h2 := countP_mem_eq_length hd comp hc hsub
  have h3 := List.countP_le_length (fun s => decide (s ∈ comp)) (l := defined)
  omega

/-! ### check_index_format and check_section_progress structure -/

theorem check_index_format_valid {idx : Str}
    (hv : (check_index_format (some idx)).manifest_valid = true) :
    (parse_manifest_block idx).success = true ∧
    (check_index_format (some idx)).sections = (parse_manifest_block idx).sections := by
  unfold check_index_format at hv ⊢
  dsimp only at hv ⊢
  by_cases hm : (findSub idx MANIFEST_START).isSome = true
  · rw [if_pos hm] at hv ⊢
    exact ⟨hv, rfl⟩
  · rw [if_neg hm] at hv
    cases hv

theorem parse_success_sections_nodup {content : Str}
    (h : (parse_manifest_block content).success = true) :
    (parse_manifest_block content).sections.Nodup := by
  refine (parse_sections_pairwise_lt h).imp ?_
  intro a b hab heq
  rw [heq] at hab
  exact Nat.lt_irrefl _ hab

theorem csp_some {dirFiles : List Str} {idx : Str} {comp : List Str}
    (hg : get_completed_sections (some dirFiles) = some comp) :
    check_section_progress (some dirFiles) (some idx) = some
      ⟨progressState true true (check_index_format (some idx)).manifest_valid comp
          ((check_index_format (some idx)).sections.filter (fun s => decide (s ∉ comp)))
          (check_index_format (some idx)).sections,
        true, (check_index_format (some idx)).sections, comp,
        (check_index_format (some idx)).sections.filter (fun s => decide (s ∉ comp)),
        ((check_index_format (some idx)).sections.filter (fun s => decide (s ∉ comp))).head?,
        (if (check_index_format (some idx)).sections.length > 0 then
           natStr comp.length ++ "/".data ++ natStr (check_index_format (some idx)).sections.length
         else "0/0".data),
        check_index_format (some idx)⟩ := by
  unfold check_section_progress
  dsimp only
  rw [hg]
  rfl

theorem csp_none {dirFiles : List Str} {idx : Option Str}
    (hg : get_completed_sections (some dirFiles) = none) :
    check_section_progress (some dirFiles) idx = none := by
  unfold check_section_progress
  dsimp only
  rw [hg]
  rfl

/-! ### C2: state refinement for a valid index -/

/-- C2: when the sections directory and index exist, the manifest is valid,
and the completed artifacts are distinct defined sections, the state is
`has_index` exactly when zero sections are completed, `partial` exactly when
between 1 and N-1 are completed, `complete` exactly when nothing is missing
and at least one section is defined; the progress string is "k/N" when N > 0
and "0/0" when N = 0. -/
theorem spec2proof_C2 (dirFiles : List Str) (idx : Str) (p : SectionProgress)
    (hp : check_section_progress (some dirFiles) (some idx) = some p)
    (hv : p.index_format.manifest_valid = true)
    (hsub : ∀ x ∈ p.completed_sections, x ∈ p.defined_sections)
    (hnd : p.completed_sections.Nodup) :
    (p.state = "has_index".data ↔ p.completed_sections.length = 0) ∧
    (p.state = "partial".data ↔
      1 ≤ p.completed_sections.length ∧
      p.completed_sections.length ≤ p.defined_sections.length - 1) ∧
    (p.state = "complete".data ↔
      p.missing_sections = [] ∧ 1 ≤ p.defined_sections.length) ∧
    (p.defined_sections.length > 0 →
      p.progress = natStr p.completed_sections.length ++ "/".data ++
        natStr p.defined_sections.length) ∧
    (p.defined_sections.length = 0 → p.progress = "0/0".data) := by
  cases hg : get_completed_sections (some dirFiles) with
  | none => rw [csp_none hg] at hp; cases hp
  | some comp =>
    rw [csp_some hg] at hp
    injection hp with hp
    subst hp
    dsimp only at hv hsub hnd ⊢
    obtain ⟨hps, hsec⟩ := check_index_format_valid hv
    have hdd : (check_index_format (some idx)).sections.Nodup := by
      rw [hsec]
      exact parse_success_sections_nodup hps
    have hdne : (check_index_format (some idx)).sections ≠ [] := by
      rw [hsec]
      exact parse_success_sections_ne_nil hps
    have hmiss := length_filter_not_mem hdd hnd hsub
    have hle := comp_length_le hdd hnd hsub
    rw [hv]
    unfold progressState
    rw [if_neg (by simp)]
    rw [if_neg (by simp)]
    by_cases hcomp : comp = []
    · rw [if_pos ⟨rfl, hcomp⟩]
      subst hcomp
      have hfeq : (check_index_format (some idx)).sections.filter
          (fun s => decide (s ∉ ([] : List Str))) =
          (check_index_format (some idx)).sections := by
        rw [List.filter_eq_self]
        intro a ha
        simp
      have hmne : (check_index_format (some idx)).sections.filter
          (fun s => decide (s ∉ ([] : List Str))) ≠ [] := by
        rw [hfeq]
        exact hdne
      refine ⟨by simp, ?_, ?_, ?_, ?_⟩
      · constructor
        · intro h; exact absurd h (by decide)
        · intro h; simp at h
      · constructor
        · intro h; exact absurd h (by decide)
        · intro h; exact absurd h.1 hmne
      · intro h; rw [if_pos h]
      · intro h
        exact absurd (List.length_pos.mpr hdne) (by omega)
    · rw [if_neg (by intro h; exact hcomp h.2)]
      have hk1 : 1 ≤ comp.length := by
        rcases List.exists_cons_of_ne_nil hcomp with ⟨a, as, ha⟩
        rw [ha]
        simp
      by_cases hmissing : (check_index_format (some idx)).sections.filter
          (fun s => decide (s ∉ comp)) = []
      · rw [if_neg (by intro h; exact h.2 hmissing)]
        rw [if_pos ⟨rfl, hmissing, hdne⟩]
        have hkN : comp.length = (check_index_format (some idx)).sections.length := by
          rw [hmissing] at hmiss
          simp at hmiss
          omega
        refine ⟨?_, ?_, ?_, ?_, ?_⟩
        · constructor
          · intro h; exact absurd h (by decide)
          · intro h; omega
        · constructor
          · intro h; exact absurd h (by decide)
          · intro h; omega
        · exact ⟨fun h => ⟨hmissing, List.length_pos.mpr hdne⟩, fun h => rfl⟩
        · intro h; rw [if_pos h]
        · intro h
          exact absurd (List.length_pos.mpr hdne) (by omega)
      · rw [if_pos ⟨rfl, hmissing⟩]
        have hklt : comp.length < (check_index_format (some idx)).sections.length := by
          have : 0 < ((check_index_format (some idx)).sections.filter
              (fun s => decide (s ∉ comp))).length := List.length_pos.mpr hmissing
          omega
        refine ⟨?_, ?_, ?_, ?_, ?_⟩
        · constructor
          · intro h; exact absurd h (by decide)
          · intro h; omega
        · exact ⟨fun h => ⟨hk1, by omega⟩, fun h => rfl⟩
        · constructor
          · intro h; exact absurd h (by decide)
          · intro h; exact absurd h.1 hmissing
        · intro h; rw [if_pos h]
        · intro h
          exact absurd (List.length_pos.mpr hdne) (by omega)

/-- Witness for C2: a two-section manifest with one completed artifact is in
state partial with progress 1/2. -/
theorem spec2proof_C2_witness :
    (check_section_progress (some ["section-01-setup.md".data])
        (some ("<!-- SECTION_MANIFEST\nsection-01-setup\nsection-02-api\nEND_MANIFEST -->").data) =
      some c2record ∧
     c2record.index_format.manifest_valid = true ∧
     (∀ x ∈ c2record.completed_sections, x ∈ c2record.defined_sections) ∧
     c2record.completed_sections.Nodup) ∧
    ((c2record.state = "has_index".data ↔ c2record.completed_sections.length = 0) ∧
     (c2record.state = "partial".data ↔
       1 ≤ c2record.completed_sections.length ∧
       c2record.completed_sections.length ≤ c2record.defined_sections.length - 1) ∧
     (c2record.state = "complete".data ↔
       c2record.missing_sections = [] ∧ 1 ≤ c2record.defined_sections.length) ∧
     (c2record.defined_sections.length > 0 →
       c2record.progress = natStr c2record.completed_sections.length ++ "/".data ++
         natStr c2record.defined_sections.length) ∧
     (c2record.defined_sections.length = 0 → c2record.progress = "0/0".data)) :=
  ⟨⟨by decide, by decide, by decide, by decide⟩,
   spec2proof_C2 ["section-01-setup.md".data]
     ("<!-- SECTION_MANIFEST\nsection-01-setup\nsection-02-api\nEND_MANIFEST -->").data
     c2record (by decide) (by decide) (by decide) (by decide)⟩

/-! ### C6: section-replacement substitution in generate_todos -/

/-- C6: with a section-replacement list (whose items do not themselves carry
the sentinel contents), the output is the rendered step table with the
"Generate section TODOs" entry dropped and the "Write section files" entry
replaced in place by the supplied items, unmodified and contiguous; neither
sentinel content appears in the output. -/
theorem spec2proof_C6 (cs : Int) (st : List TodoItem)
    (hst : ∀ t ∈ st, t.content ≠ "Generate section TODOs" ∧
      t.content ≠ "Write section files") :
    generate_todos cs (some st) none none none none =
      (TODO_ITEMS.take 18).map (renderItem cs) ++ st ++
        (TODO_ITEMS.drop 20).map (renderItem cs) ∧
    ∀ t ∈ generate_todos cs (some st) none none none none,
      t.content ≠ "Generate section TODOs" ∧ t.content ≠ "Write section files" := by
  have heq : generate_todos cs (some st) none none none none =
      (TODO_ITEMS.take 18).map (renderItem cs) ++ st ++
        (TODO_ITEMS.drop 20).map (renderItem cs) := rfl
  refine ⟨heq, ?_⟩
  intro t ht
  rw [heq] at ht
  have hA : ∀ s ∈ (TODO_ITEMS.take 18).map (fun x : String × String × Nat => x.1),
      s ≠ "Generate section TODOs" ∧ s ≠ "Write section files" := by decide
  have hB : ∀ s ∈ (TODO_ITEMS.drop 20).map (fun x : String × String × Nat => x.1),
      s ≠ "Generate section TODOs" ∧ s ≠ "Write section files" := by decide
  rcases List.mem_append.mp ht with h1 | h2
  · rcases List.mem_append.mp h1 with h1a | h1b
    · obtain ⟨e, he, hrend⟩ := List.mem_map.mp h1a
      rw [← hrend]
      exact hA e.1 (List.mem_map_of_mem (fun x : String × String × Nat => x.1) he)
    · exact hst t h1b
  · obtain ⟨e, he, hrend⟩ := List.mem_map.mp h2
    rw [← hrend]
    exact hB e.1 (List.mem_map_of_mem (fun x : String × String × Nat => x.1) he)

/-- Witness for C6 with a 4-element replacement list. -/
theorem spec2proof_C6_witness :
    (∀ t ∈ ([⟨"w1", "completed", "a1"⟩, ⟨"w2", "pending", "a2"⟩,
            ⟨"w3", "pending", "a3"⟩, ⟨"w4", "pending", "a4"⟩] : List TodoItem),
      t.content ≠ "Generate section TODOs" ∧ t.content ≠ "Write section files") ∧
    (generate_todos 19 (some [⟨"w1", "completed", "a1"⟩, ⟨"w2", "pending", "a2"⟩,
            ⟨"w3", "pending", "a3"⟩, ⟨"w4", "pending", "a4"⟩]) none none none none =
      (TODO_ITEMS.take 18).map (renderItem 19) ++
        [⟨"w1", "completed", "a1"⟩, ⟨"w2", "pending", "a2"⟩,
         ⟨"w3", "pending", "a3"⟩, ⟨"w4", "pending", "a4"⟩] ++
        (TODO_ITEMS.drop 20).map (renderItem 19) ∧
     ∀ t ∈ generate_todos 19 (some [⟨"w1", "completed", "a1"⟩, ⟨"w2", "pending", "a2"⟩,
            ⟨"w3", "pending", "a3"⟩, ⟨"w4", "pending", "a4"⟩]) none none none none,
       t.content ≠ "Generate section TODOs" ∧ t.content ≠ "Write section files") :=
  ⟨by decide, spec2proof_C6 19 _ (by decide)⟩

/-! ### C7: status assignment without a replacement list -/

/-- C7: without a replacement list, the output is the context items followed
by the full step table, each table entry completed/in_progress/pending by
comparing its step number with the current step; for current step 6 exactly
the five setup entries plus the context items are completed, exactly one
entry is in progress, and the remaining 16 are pending. -/
theorem spec2proof_C7 (cs : Int) (pr pd fi : Option String) (cce : Option Bool) :
    generate_todos cs none pr pd fi cce =
      ctxItems pr pd fi cce ++ TODO_ITEMS.map (fun e =>
        ⟨e.1, if (e.2.2 : Int) < cs then "completed"
              else if (e.2.2 : Int) = cs then "in_progress" else "pending", e.2.1⟩) ∧
    (∀ t ∈ ctxItems pr pd fi cce, t.status = "completed") ∧
    ((generate_todos 6 none pr pd fi cce).countP
        (fun t => t.status == "completed") = (ctxItems pr pd fi cce).length + 5 ∧
     (generate_todos 6 none pr pd fi cce).countP
        (fun t => t.status == "in_progress") = 1 ∧
     (generate_todos 6 none pr pd fi cce).countP
        (fun t => t.status == "pending") = 16) := by
  have hmain : ∀ (o : Option String) (c af : String) (t : TodoItem),
      t ∈ ctxItem o c af → t.status = "completed" := by
    intro o c af t ht
    unfold ctxItem at ht
    cases o with
    | none => cases ht
    | some s =>
      dsimp only at ht
      by_cases hs : s = ""
      · rw [if_pos hs] at ht; cases ht
      · rw [if_neg hs] at ht
        rw [List.mem_singleton.mp ht]
  have hctx : ∀ t ∈ ctxItems pr pd fi cce, t.status = "completed" := by
    intro t ht
    unfold ctxItems at ht
    rcases List.mem_append.mp ht with h | hD
    · rcases List.mem_append.mp h with h2 | hC
      · rcases List.mem_append.mp h2 with hA | hB
        · exact hmain pr "plugin_root=" "Context: plugin_root" t hA
        · exact hmain pd "planning_dir=" "Context: planning_dir" t hB
      · exact hmain fi "initial_file=" "Context: initial_file" t hC
    · cases cce with
      | none => cases hD
      | some b => rw [List.mem_singleton.mp hD]
  have htable : buildTable 6 none TODO_ITEMS = TODO_ITEMS.map (fun e =>
      (⟨e.1, if (e.2.2 : Int) < 6 then "completed"
             else if (e.2.2 : Int) = 6 then "in_progress" else "pending",
        e.2.1⟩ : TodoItem)) := rfl
  refine ⟨rfl, hctx, ?_, ?_, ?_⟩
  · show (ctxItems pr pd fi cce ++ buildTable 6 none TODO_ITEMS).countP
      (fun t => t.status == "completed") = (ctxItems pr pd fi cce).length + 5
    rw [List.countP_append]
    have h1 : (ctxItems pr pd fi cce).countP (fun t => t.status == "completed") =
        (ctxItems pr pd fi cce).length := by
      rw [List.countP_eq_length]
      intro t ht
      rw [hctx t ht]
      rfl
    have h2 : (buildTable 6 none TODO_ITEMS).countP
        (fun t => t.status == "completed") = 5 := by decide
    rw [h1, h2]
  · show (ctxItems pr pd fi cce ++ buildTable 6 none TODO_ITEMS).countP
      (fun t => t.status == "in_progress") = 1
    rw [List.countP_append]
    have h1 : (ctxItems pr pd fi cce).countP (fun t => t.status == "in_progress") = 0 := by
      rw [List.countP_eq_zero]
      intro t ht
      rw [hctx t ht]
      decide
    have h2 : (buildTable 6 none TODO_ITEMS).countP
        (fun t => t.status == "in_progress") = 1 := by decide
    rw [h1, h2]
  · show (ctxItems pr pd fi cce ++ buildTable 6 none TODO_ITEMS).countP
      (fun t => t.status == "pending") = 16
    rw [List.countP_append]
    have h1 : (ctxItems pr pd fi cce).countP (fun t => t.status == "pending") = 0 := by
      rw [List.countP_eq_zero]
      intro t ht
      rw [hctx t ht]
      decide
    have h2 : (buildTable 6 none TODO_ITEMS).countP
        (fun t => t.status == "pending") = 16 := by decide
    rw [h1, h2]

/-- The per-section items built by `generate_section_todo_items` never carry
either sentinel content, so the no-sentinel hypothesis above holds for the
replacement list the callers actually supply. -/
theorem generate_section_todo_items_no_sentinel (a b : List String) :
    ∀ t ∈ generate_section_todo_items a b,
      t.content ≠ "Generate section TODOs" ∧ t.content ≠ "Write section files" := by
  intro t ht
  obtain ⟨s, hs, hteq⟩ := List.mem_map.mp ht
  rw [← hteq]
  constructor
  · intro h
    dsimp only at h
    have h0 : ("Read section-splitting.md and write " ++ s).data.head? = some 'R' := by
      rw [String.data_append]
      rfl
    rw [h] at h0
    exact absurd h0 (by decide)
  · intro h
    dsimp only at h
    have h0 : ("Read section-splitting.md and write " ++ s).data.head? = some 'R' := by
      rw [String.data_append]
      rfl
    rw [h] at h0
    exact absurd h0 (by decide)

/-! ### C3: branch 3 of infer_resume_step (corrected) -/

/-- Counterexample for C3 as stated: with a sections directory holding an
invalid index.md and one section file, the index IS present
(sections_index = true, progress state invalid_index), yet infer_resume_step
still returns (18, "section files exist but no index"). -/
theorem spec2proof_C3_cex :
    (check_section_progress (some ["index.md".data, "section-01-a.md".data])
        (some "junk".data)).map
        (fun sp => infer_resume_step
          ⟨false, false, false, false, false, false, [],
           ["section-01-a.md".data], true⟩ sp) =
      some (some 18, "section files exist but no index".data) ∧
    (⟨false, false, false, false, false, false, [],
      ["section-01-a.md".data], true⟩ : FilesFound).sections_index = true ∧
    (check_section_progress (some ["index.md".data, "section-01-a.md".data])
        (some "junk".data)).map (fun sp => sp.state) = some "invalid_index".data :=
  ⟨by decide, rfl, by decide⟩

set_option maxHeartbeats 4000000 in
/-- C3 (amended): branch 3 fires exactly when section files exist and neither
index branch fired — that is, the index is not present with state complete,
partial, or has_index (so it also fires when an index is present but
invalid); the chain is a strict waterfall, so with a plan artifact the result
is never step 10, and with a plan artifact and no later-stage artifacts the
result is step 12. -/
theorem spec2proof_C3 :
    (∀ (files : FilesFound) (sp : SectionProgress),
      infer_resume_step files sp = (some 18, "section files exist but no index".data) ↔
        (files.sections ≠ [] ∧
         ¬(files.sections_index = true ∧
           (sp.state = "complete".data ∨ sp.state = "partial".data ∨
            sp.state = "has_index".data)))) ∧
    (∀ (files : FilesFound) (sp : SectionProgress),
      files.plan = true → (infer_resume_step files sp).1 ≠ some 10) ∧
    (∀ (files : FilesFound) (sp : SectionProgress),
      files.plan = true → files.sections_index = false → files.sections = [] →
      files.plan_tdd = false → files.integration_notes = false → files.reviews = [] →
      infer_resume_step files sp = (some 12, "implementation plan complete".data)) := by
  refine ⟨?_, ?_, ?_⟩
  · intro files sp
    unfold infer_resume_step
    split_ifs with h1 h2 h3 h4 h5 h6 h7 h8 h9 h10
    · constructor
      · intro h
        have hfst : (none : Option Nat) = some 18 := congrArg Prod.fst h
        exact absurd hfst (by decide)
      · intro hr
        exact absurd ⟨h1.1, Or.inl h1.2⟩ hr.2
    · constructor
      · intro h
        have hfst : (some 19 : Option Nat) = some 18 := congrArg Prod.fst h
        exact absurd hfst (by decide)
      · intro hr
        rcases h2.2 with hp | hh
        · exact absurd ⟨h2.1, Or.inr (Or.inl hp)⟩ hr.2
        · exact absurd ⟨h2.1, Or.inr (Or.inr hh)⟩ hr.2
    · constructor
      · intro h
        refine ⟨h3, ?_⟩
        intro hc
        rcases hc.2 with hcs | hps | hhs
        · exact h1 ⟨hc.1, hcs⟩
        · exact h2 ⟨hc.1, Or.inl hps⟩
        · exact h2 ⟨hc.1, Or.inr hhs⟩
      · intro hr
        rfl
    · exact ⟨fun h => absurd ((by exact congrArg Prod.fst h) : (some 17 : Option Nat) = some 18) (by decide),
        fun hr => absurd hr.1 h3⟩
    · exact ⟨fun h => absurd ((by exact congrArg Prod.fst h) : (some 15 : Option Nat) = some 18) (by decide),
        fun hr => absurd hr.1 h3⟩
    · exact ⟨fun h => absurd ((by exact congrArg Prod.fst h) : (some 14 : Option Nat) = some 18) (by decide),
        fun hr => absurd hr.1 h3⟩
    · exact ⟨fun h => absurd ((by exact congrArg Prod.fst h) : (some 12 : Option Nat) = some 18) (by decide),
        fun hr => absurd hr.1 h3⟩
    · exact ⟨fun h => absurd ((by exact congrArg Prod.fst h) : (some 11 : Option Nat) = some 18) (by decide),
        fun hr => absurd hr.1 h3⟩
    · exact ⟨fun h => absurd ((by exact congrArg Prod.fst h) : (some 10 : Option Nat) = some 18) (by decide),
        fun hr => absurd hr.1 h3⟩
    · exact ⟨fun h => absurd ((by exact congrArg Prod.fst h) : (some 8 : Option Nat) = some 18) (by decide),
        fun hr => absurd hr.1 h3⟩
    · exact ⟨fun h => absurd ((by exact congrArg Prod.fst h) : (some 6 : Option Nat) = some 18) (by decide),
        fun hr => absurd hr.1 h3⟩
  · intro files sp hplan
    unfold infer_resume_step
    split_ifs with h1 h2 h3 h4 h5 h6
    · exact (by decide : (none : Option Nat) ≠ some 10)
    · exact (by decide : (some 19 : Option Nat) ≠ some 10)
    · exact (by decide : (some 18 : Option Nat) ≠ some 10)
    · exact (by decide : (some 17 : Option Nat) ≠ some 10)
    · exact (by decide : (some 15 : Option Nat) ≠ some 10)
    · exact (by decide : (some 14 : Option Nat) ≠ some 10)
    · exact (by decide : (some 12 : Option Nat) ≠ some 10)
  · intro files sp h1 h2 h3 h4 h5 h6
    unfold infer_resume_step
    rw [if_neg (by intro hc; have hx := hc.1; rw [h2] at hx; cases hx),
        if_neg (by intro hc; have hx := hc.1; rw [h2] at hx; cases hx),
        if_neg (by intro hc; exact hc h3),
        if_neg (by intro hc; rw [h4] at hc; cases hc),
        if_neg (by intro hc; rw [h5] at hc; cases hc),
        if_neg (by intro hc; exact hc h6),
        if_pos h1]

/-- Witness for C3: with a plan and an interview artifact and nothing later,
the resume step is 12, never 10. -/
theorem spec2proof_C3_witness :
    ((infer_resume_step ⟨false, true, false, true, false, false, [], [], false⟩
        ⟨"fresh".data, false, [], [], [], none, "0/0".data,
         ⟨false, false, false, [], none, []⟩⟩).1 ≠ some 10) ∧
    infer_resume_step ⟨false, true, false, true, false, false, [], [], false⟩
        ⟨"fresh".data, false, [], [], [], none, "0/0".data,
         ⟨false, false, false, [], none, []⟩⟩ =
      (some 12, "implementation plan complete".data) :=
  ⟨spec2proof_C3.2.1 _ _ rfl, spec2proof_C3.2.2 _ _ rfl rfl rfl rfl rfl rfl⟩

/-! ### C1: check_section_progress raises on a digit-free section file name -/

/-- C1 (evaluating the code at the failing input): a sections directory whose
only file is `section-abc.md` — matched by the glob `section-*.md` but with
no digit run for `re.search(r'section-(\d+)', ...)` — makes the sort key of
`get_completed_sections` raise AttributeError, so `check_section_progress`
propagates an exception (modelled as `none`) instead of returning a record
with state fresh. -/
theorem spec2proof_C1 :
    check_section_progress (some ["section-abc.md".data]) none = none := by decide

/-! ### C4: discovery of completed section artifacts (corrected) -/

/-- Counterexample for C4 as stated: `section-01-foo.txt` has a stem matching
section-<digits>-* (the digit search succeeds with value 1), yet it is not
returned — the glob `section-*.md` only admits the .md extension, so the
result is empty rather than ["section-01-foo"]. -/
theorem spec2proof_C4_cex :
    get_completed_sections (some ["section-01-foo.txt".data]) = some [] ∧
    searchSectionNum "section-01-foo".data = some 1 ∧
    some ([] : List Str) ≠ some ["section-01-foo".data] :=
  ⟨by decide, by decide, by decide⟩

/-- C4 (amended): when it does not raise, `get_completed_sections` returns
exactly the `.md` files whose name starts with `section-` (any other
extension is excluded), stems stripped of `.md`, sorted ascending by the
integer value of the first digit run following an occurrence of `section-`
in the stem, regardless of digit-run width; every returned stem has such a
digit run. -/
theorem spec2proof_C4 (files out : List Str)
    (h : get_completed_sections (some files) = some out) :
    out.Perm ((files.filter globSectionMd).map stemMd) ∧
    out.Pairwise (fun a b => keyNum a ≤ keyNum b) ∧
    (∀ s ∈ out, (searchSectionNum s).isSome = true) := by
  unfold get_completed_sections at h
  dsimp only at h
  split at h
  · rename_i hall
    injection h with h
    subst h
    refine ⟨List.perm_insertionSort _ _, ?_, ?_⟩
    · haveI ht1 : IsTotal Str (fun a b => keyNum a ≤ keyNum b) :=
        ⟨fun a b => Nat.le_total _ _⟩
      haveI ht2 : IsTrans Str (fun a b => keyNum a ≤ keyNum b) :=
        ⟨fun a b c hab hbc => Nat.le_trans hab hbc⟩
      exact List.sorted_insertionSort _ _
    · intro s hs
      have hs2 : s ∈ (files.filter globSectionMd).map stemMd :=
        (List.perm_insertionSort _ _).mem_iff.mp hs
      exact List.all_eq_true.mp hall s hs2
  · cases h

/-- Witness for C4: a one-digit and a two-digit file sort numerically
(2 before 10), with the .md extension stripped. -/
theorem spec2proof_C4_witness :
    (get_completed_sections (some ["section-10-b.md".data, "section-2-a.md".data]) =
      some ["section-2-a".data, "section-10-b".data]) ∧
    (List.Perm ["section-2-a".data, "section-10-b".data]
       (((["section-10-b.md".data, "section-2-a.md".data] : List Str).filter
          globSectionMd).map stemMd) ∧
     List.Pairwise (fun a b => keyNum a ≤ keyNum b)
       (["section-2-a".data, "section-10-b".data] : List Str) ∧
     (∀ s ∈ (["section-2-a".data, "section-10-b".data] : List Str),
       (searchSectionNum s).isSome = true)) :=
  ⟨by decide, spec2proof_C4 _ _ (by decide)⟩

end DeepPlan
